import Mathlib

/-!
# Verification of `mass_crc32c.go`

A shallow embedding of the core of `mass-crc32c`: table-driven CRC32C
(Castagnoli) streaming checksums (`CRCReader`), the per-worker job loop with
batched output flushing (`fileHandler`), the directory-walk classifier
(`enqueueJob`), the startup self-test (`sanityCheck`), and the final
statistics aggregation from `main`.

Bytes are modelled as `Nat` values `< 256`; `uint32` state as `Nat` with all
operations (xor, shift, and) meaningful below `2^32`; Go `int64` counters as
`Int` (their overflow at `2^63` is not modelled: every quantity involved is
bounded by the number of jobs / bytes actually handled).
-/

/-! ## CRC32C core (Go `hash/crc32`, Castagnoli table)

`init` runs `g_crc32cTable = crc32.MakeTable(crc32.Castagnoli)`.
`crc32.Castagnoli = 0x82f63b78` is the bit-reversed Castagnoli polynomial.
`MakeTable` builds the 256-entry table with `simpleMakeTable`: entry `i` is
the result of eight conditional shift/xor steps starting from `i`.
`crc32.Update` is semantically `simpleUpdate`: complement the state, fold
each byte through a table lookup, complement again.  (The Go runtime may
dispatch to slicing-by-8 or hardware CRC code, all documented and tested to
agree with `simpleUpdate`.) -/

/-- The constant `crc32.Castagnoli` (reversed polynomial representation). -/
def castagnoliPoly : Nat := 0x82f63b78

/-- One step of the inner loop of `simpleMakeTable`:
`if crc&1 == 1 { crc = (crc >> 1) ^ poly } else { crc >>= 1 }`. -/
def crcBitStep (crc : Nat) : Nat :=
  if crc &&& 1 = 1 then (crc >>> 1) ^^^ castagnoliPoly else crc >>> 1

/-- Entry `i` of the Castagnoli table: eight `crcBitStep` iterations on `i`
(the `for j := 0; j < 8; j++` loop of `simpleMakeTable`). -/
def crc32TableEntry (i : Nat) : Nat := crcBitStep^[8] i

/-- One byte of `simpleUpdate`: `crc = tab[byte(crc)^v] ^ (crc >> 8)`
(`byte(crc)` is `crc &&& 0xFF`). -/
def crc32ByteStep (crc b : Nat) : Nat :=
  crc32TableEntry ((crc &&& 0xFF) ^^^ b) ^^^ (crc >>> 8)

/-- Model of `crc32.Update(crc, g_crc32cTable, p)` (= `simpleUpdate`): complement,
fold all bytes, complement.  `^x` on `uint32` is `x ^^^ 0xFFFFFFFF`. -/
def crc32Update (crc : Nat) (p : List Nat) : Nat :=
  (p.foldl crc32ByteStep (crc ^^^ 0xFFFFFFFF)) ^^^ 0xFFFFFFFF

/-! ### Reference CRC32C, modelled from the spec

The spec's "reference CRC32C (Castagnoli) value": the textbook bit-at-a-time
definition — state starts at all-ones, each message byte is xor-ed into the
low bits and followed by eight polynomial-division steps, and the final
state is complemented.  This definition is written from the spec's words and
is compared against the table-driven code above. -/

/-- Reference bit-at-a-time processing of one byte. -/
def crc32cRefByteStep (crc b : Nat) : Nat := crcBitStep^[8] (crc ^^^ b)

/-- Reference CRC32C of a whole byte sequence (spec model). -/
def crc32cRef (p : List Nat) : Nat :=
  (p.foldl crc32cRefByteStep 0xFFFFFFFF) ^^^ 0xFFFFFFFF

/-! ## Equivalence of the table-driven code with the bitwise reference -/

theorem xor_xor_cancel (x m : Nat) : (x ^^^ m) ^^^ m = x := by
  rw [Nat.xor_assoc, Nat.xor_self, Nat.xor_zero]

theorem xor_shiftRight_distrib (x y n : Nat) :
    (x ^^^ y) >>> n = (x >>> n) ^^^ (y >>> n) := by
  apply Nat.eq_of_testBit_eq
  intro i
  simp [Nat.testBit_shiftRight, Nat.testBit_xor]

/-- Xor-ing a value with zero low bit into the state commutes with one
polynomial-division step: the shifted-in value just shifts along. -/
theorem crcBitStep_xor_shiftLeft (a y : Nat) :
    crcBitStep (a ^^^ (y <<< 1)) = crcBitStep a ^^^ y := by
  have htwo : y <<< 1 = 2 * y := by
    rw [Nat.shiftLeft_succ, Nat.shiftLeft_zero]
  have hpar : (a ^^^ (y <<< 1)) &&& 1 = a &&& 1 := by
    rw [Nat.and_xor_distrib_right]
    have h0 : (y <<< 1) &&& 1 = 0 := by
      rw [Nat.and_one_is_mod, htwo, Nat.mul_mod_right]
    rw [h0, Nat.xor_zero]
  have hshift : (a ^^^ (y <<< 1)) >>> 1 = (a >>> 1) ^^^ y := by
    rw [xor_shiftRight_distrib, Nat.shiftLeft_shiftRight]
  unfold crcBitStep
  rw [hpar, hshift]
  by_cases h : a &&& 1 = 1
  · simp only [h, if_true]
    rw [Nat.xor_assoc, Nat.xor_comm y castagnoliPoly, ← Nat.xor_assoc]
  · simp only [h, if_false]

/-- Eight division steps on a state whose upper part is `y <<< 8` shift `y`
fully out of the iteration. -/
theorem crcBitStep_iterate_xor :
    ∀ (k : Nat) (a y : Nat), crcBitStep^[k] (a ^^^ (y <<< k)) = crcBitStep^[k] a ^^^ y := by
  intro k
  induction k with
  | zero =>
    intro a y
    simp [Nat.shiftLeft_zero]
  | succ k ih =>
    intro a y
    have hsplit : y <<< (k + 1) = (y <<< k) <<< 1 := by
      exact Nat.shiftLeft_add y k 1
    rw [Function.iterate_succ_apply, Function.iterate_succ_apply, hsplit,
      crcBitStep_xor_shiftLeft, ih]

/-- Every `Nat` splits into its low byte xor its high part shifted left. -/
theorem and_255_xor_shift (x : Nat) : (x &&& 255) ^^^ ((x >>> 8) <<< 8) = x := by
  apply Nat.eq_of_testBit_eq
  intro i
  have h255 : (255 : Nat) = 2 ^ 8 - 1 := by norm_num
  simp only [Nat.testBit_xor, Nat.testBit_and, Nat.testBit_shiftLeft,
    Nat.testBit_shiftRight, h255, Nat.testBit_two_pow_sub_one]
  by_cases h : i < 8
  · have h8 : ¬ 8 ≤ i := by omega
    simp [h, h8]
  · have h8 : 8 ≤ i := by omega
    have hi : 8 + (i - 8) = i := by omega
    simp [h, h8, hi]

/-- One byte of the table-driven update agrees with eight bit-at-a-time
steps on the xor-ed state: `tab[byte(crc)^b] ^ (crc>>8)` is the reference
byte step. -/
theorem crc32ByteStep_eq_ref (crc b : Nat) (hb : b < 256) :
    crc32ByteStep crc b = crc32cRefByteStep crc b := by
  unfold crc32ByteStep crc32cRefByteStep crc32TableEntry
  have hb255 : b &&& 255 = b := by
    have h255 : (255 : Nat) = 2 ^ 8 - 1 := by norm_num
    rw [h255]
    exact Nat.and_pow_two_sub_one_of_lt_two_pow hb
  have hand : (crc &&& 0xFF) ^^^ b = (crc ^^^ b) &&& 255 := by
    rw [Nat.and_xor_distrib_right, hb255]
  have hshift : crc >>> 8 = (crc ^^^ b) >>> 8 := by
    rw [xor_shiftRight_distrib]
    have hb8 : b >>> 8 = 0 := by
      rw [Nat.shiftRight_eq_div_pow]
      exact Nat.div_eq_of_lt (by omega)
    rw [hb8, Nat.xor_zero]
  rw [hand, hshift]
  conv_rhs => rw [← and_255_xor_shift (crc ^^^ b)]
  rw [crcBitStep_iterate_xor]

/-- Folding any byte list through the table-driven step agrees with the
bitwise reference fold, from any state. -/
theorem foldl_crc32ByteStep_eq_ref :
    ∀ (p : List Nat) (s : Nat), (∀ b ∈ p, b < 256) →
      p.foldl crc32ByteStep s = p.foldl crc32cRefByteStep s := by
  intro p
  induction p with
  | nil => intro s _; rfl
  | cons b rest ih =>
    intro s hp
    have hb : b < 256 := hp b (List.mem_cons_self b rest)
    have hrest : ∀ x ∈ rest, x < 256 := fun x hx => hp x (List.mem_cons_of_mem b hx)
    simp only [List.foldl_cons]
    rw [crc32ByteStep_eq_ref s b hb, ih _ hrest]

/-- Updates compose across concatenation: feeding `p` then `q` through `crc32.Update`
equals feeding `p ++ q`. -/
theorem crc32Update_append (c : Nat) (p q : List Nat) :
    crc32Update (crc32Update c p) q = crc32Update c (p ++ q) := by
  unfold crc32Update
  rw [xor_xor_cancel, List.foldl_append]

/-- Updating with the empty chunk leaves the state unchanged. -/
theorem crc32Update_nil (c : Nat) : crc32Update c [] = c := by
  unfold crc32Update
  simp only [List.foldl_nil]
  exact xor_xor_cancel c 0xFFFFFFFF

/-- Folding `crc32.Update` over a list of chunks computes the update of
their concatenation. -/
theorem foldl_crc32Update_join :
    ∀ (chunks : List (List Nat)) (c : Nat),
      chunks.foldl crc32Update c = crc32Update c chunks.flatten := by
  intro chunks
  induction chunks with
  | nil => intro c; simp [crc32Update_nil]
  | cons ch rest ih =>
    intro c
    simp only [List.foldl_cons, List.flatten_cons]
    rw [ih, crc32Update_append]

/-- Seeded at `0`, `crc32.Update` computes the reference CRC32C. -/
theorem crc32Update_zero_eq_ref (p : List Nat) (hp : ∀ b ∈ p, b < 256) :
    crc32Update 0 p = crc32cRef p := by
  unfold crc32Update crc32cRef
  rw [Nat.zero_xor, foldl_crc32ByteStep_eq_ref p 0xFFFFFFFF hp]

/-- C1: chunk-by-chunk folding with `crc32.Update` seeded at `0` yields the
reference CRC32C of the whole sequence, for every way of splitting the
sequence into chunks.  (Determinism is immediate: the model is a function
of the byte sequence alone.) -/
theorem crc_chunked_update_eq_ref (chunks : List (List Nat))
    (h : ∀ b ∈ chunks.flatten, b < 256) :
    chunks.foldl crc32Update 0 = crc32cRef chunks.flatten := by
  rw [foldl_crc32Update_join, crc32Update_zero_eq_ref chunks.flatten h]

/-! ## Byte-level encodings used by `CRCReader` and `sanityCheck` -/

/-- Bytes of a Go string literal (`[]byte(s)`); all string constants in the
program are ASCII, so UTF-8 bytes coincide with code points. -/
def stringBytes (s : String) : List Nat := s.toList.map Char.toNat

/-- Model of `binary.BigEndian.PutUint32(b, v)` writing into a 4-byte slice:
`b[0] = byte(v >> 24), b[1] = byte(v >> 16), b[2] = byte(v >> 8), b[3] = byte(v)`. -/
def uint32BigEndianBytes (v : Nat) : List Nat :=
  [(v >>> 24) &&& 0xFF, (v >>> 16) &&& 0xFF, (v >>> 8) &&& 0xFF, v &&& 0xFF]

/-- The alphabet of Go `base64.StdEncoding`. -/
def base64StdAlphabet : String :=
  "ABCDEFGHIJKLMNOPQRSTUVWXYZabcdefghijklmnopqrstuvwxyz0123456789+/"

/-- Character for one 6-bit group. -/
def b64Char (i : Nat) : Char := base64StdAlphabet.toList.getD i 'A'

/-- Model of Go `base64.StdEncoding` encoding (with `=` padding): full 3-byte
groups become 4 alphabet characters, a 2-byte tail becomes 3 characters and
one pad, a 1-byte tail becomes 2 characters and two pads. -/
def base64Encode : List Nat → List Char
  | b1 :: b2 :: b3 :: rest =>
    let v := (b1 <<< 16) ||| (b2 <<< 8) ||| b3
    b64Char ((v >>> 18) &&& 63) :: b64Char ((v >>> 12) &&& 63) ::
      b64Char ((v >>> 6) &&& 63) :: b64Char (v &&& 63) :: base64Encode rest
  | [b1, b2] =>
    let v := (b1 <<< 16) ||| (b2 <<< 8)
    [b64Char ((v >>> 18) &&& 63), b64Char ((v >>> 12) &&& 63),
      b64Char ((v >>> 6) &&& 63), '=']
  | [b1] =>
    let v := b1 <<< 16
    [b64Char ((v >>> 18) &&& 63), b64Char ((v >>> 12) &&& 63), '=', '=']
  | [] => []

/-- Lowercase hexadecimal digit, as produced by Go `fmt` verb `%x`. -/
def hexDigitChar (n : Nat) : Char :=
  if n < 10 then Char.ofNat (48 + n) else Char.ofNat (87 + n)

/-- Fuel-driven most-significant-first hex digits of `n` (no leading zeros;
a single `0` for zero).  The fuel only needs to exceed the digit count. -/
def natHexDigitsAux : Nat → Nat → List Char
  | 0, _ => []
  | fuel + 1, n =>
    if n < 16 then [hexDigitChar n]
    else natHexDigitsAux fuel (n / 16) ++ [hexDigitChar (n % 16)]

/-- Hex digits of `n`, most significant first. -/
def natHexDigits (n : Nat) : List Char := natHexDigitsAux (n + 1) n

/-- Left-pad a digit string with `'0'` to width `w` (the `0` flag and width
of a Go format verb). -/
def padLeftZeros (w : Nat) (ds : List Char) : List Char :=
  List.replicate (w - ds.length) '0' ++ ds

/-- Model of Go `fmt.Sprintf("%016x", v)` for an `int64` value: zero-padded
width-16 lowercase hex; a negative value keeps its sign inside the width. -/
def goHex016 (v : Int) : String :=
  if 0 ≤ v then String.mk (padLeftZeros 16 (natHexDigits v.toNat))
  else String.mk ('-' :: padLeftZeros 15 (natHexDigits (-v).toNat))

/-! ## `CRCReader`

`CRCReader(j, buffer, bufferSize)` opens `j.path` and loops over
`file.Read(buffer)`.  The file system's behaviour is the input of the model:
either the open fails, or the reads return a sequence of chunks (each one
the first `n` bytes of the buffer after a `nil`-error read) followed by a
terminal event (`io.EOF` or a read error).  A chunk never exceeds the buffer
length; chunks of length `bufferSize` take the first branch of the `switch`
(both branches fold `buffer[:n]` and add `n` to `processedSize`).

On `io.EOF` the code compares `processedSize` with `j.size`, then reuses the
front of the read buffer: `buffer[0:4]` receives the big-endian checksum and
`buffer[4:12]` its base64 encoding.  Both slice expressions are in bounds
exactly when `12 ≤ len(buffer)`; otherwise Go panics, which the model records
as `CRCResult.panicked`. -/

/-- A work item: `type job struct { path string; size int64 }`. -/
structure Job where
  path : String
  size : Int
deriving DecidableEq

/-- Terminal event of the read loop. -/
inductive ReadEnd where
  | eof
  | readError (msg : String)
deriving DecidableEq

/-- Behaviour of the file between `os.Open` and the end of the read loop. -/
inductive FileRead where
  | openError (msg : String)
  | content (chunks : List (List Nat)) (theEnd : ReadEnd)
deriving DecidableEq

/-- Result of `CRCReader` — the `(string, error)` pair collapsed to the cases
`fileHandler` distinguishes, plus the slice-bounds panic. -/
inductive CRCResult where
  | ok (checksum : String)
  | openErr (msg : String)
  | sizeMismatch
  | readErr (msg : String)
  | panicked
deriving DecidableEq

/-- One `nil`-error iteration of the read loop: both branches of the
`n == bufferSize` test add `n` to `processedSize` and fold the `n` read
bytes into the checksum. -/
def crcReadStep (bufferSize : Nat) (st : Nat × Int) (chunk : List Nat) : Nat × Int :=
  if chunk.length = bufferSize then
    (crc32Update st.1 chunk, st.2 + (bufferSize : Int))
  else
    (crc32Update st.1 chunk, st.2 + (chunk.length : Int))

/-- The string built in the `io.EOF` branch: base64 of the big-endian 4-byte
checksum, read back out of `buffer[4:12]`. -/
def crcChecksumString (checksum : Nat) : String :=
  String.mk (base64Encode (uint32BigEndianBytes checksum))

/-- Model of `CRCReader`. `bufLen` is `len(buffer)`; `fileHandler` always
passes `bufLen = bufferSize`. -/
def CRCReader (j : Job) (fr : FileRead) (bufLen bufferSize : Nat) : CRCResult :=
  match fr with
  | .openError msg => .openErr msg
  | .content chunks theEnd =>
    let st := chunks.foldl (crcReadStep bufferSize) (0, 0)
    match theEnd with
    | .readError msg => .readErr msg
    | .eof =>
      if j.size ≠ st.2 then .sizeMismatch
      else if 12 ≤ bufLen then .ok (crcChecksumString st.1)
      else .panicked

/-! ## `fileHandler`: the worker loop

Each worker owns a read buffer of `1024 * bufferSizeKB` bytes, a `bytes.Buffer`
of pending output lines, a `uint8` batch counter and a local `jobStat`.  For
every job drained from the queue it runs `CRCReader`; on error it logs via
`printErr` and continues; on success it increments the counter (wrapping at
256), accumulates `bytesProcessed`, appends the formatted line, and on
counter wrap-around writes the whole batch to stdout and adds 256 to
`filesProcessed`.  After the queue closes, a non-zero counter forces a final
flush and is added to `filesProcessed`; the local `jobStat` is then written
into the worker's slot of `jobStats`.

An unrecovered Go panic would kill the goroutine (and the process), so the
model stops processing and performs no final flush in that case. -/

/-- Diagnostic line of `printErr(path, err)`. -/
def printErrLine (path msg : String) : String :=
  "CRC error: '" ++ path ++ "' : " ++ msg ++ "\n"

/-- The error message of `errors.New("fileInfoSize != processedSize")`. -/
def sizeMismatchMsg : String := "fileInfoSize != processedSize"

/-- Stderr lines produced for one failed job: `printErr` runs inside
`CRCReader` for an open error and again in the `fileHandler` loop for every
error it returns. -/
def crcErrorLog (path : String) : CRCResult → List String
  | .openErr msg => [printErrLine path msg, printErrLine path msg]
  | .sizeMismatch => [printErrLine path sizeMismatchMsg]
  | .readErr msg => [printErrLine path msg]
  | _ => []

/-- The result line written for a successful job:
`crc + fmt.Sprintf(" %016x ", jobFileSize) + j.path + "\n"`. -/
def outputLine (j : Job) (crc : String) : String :=
  crc ++ " " ++ goHex016 j.size ++ " " ++ j.path ++ "\n"

/-- State of one worker while running `fileHandler`: the pending
`stdoutBuffer`, everything already written to stdout and stderr, the `uint8`
`batchCounter` (kept `< 256` by a `% 256` wrap), and the local `jobStat`. -/
structure WorkerState where
  stdoutBuffer : List String := []
  flushed : List String := []
  errLog : List String := []
  batchCounter : Nat := 0
  bytesProcessed : Int := 0
  filesProcessed : Int := 0
  panicked : Bool := false
deriving DecidableEq

/-- The initial worker state. -/
def initialWorkerState : WorkerState := {}

/-- The success path of the loop body: `batchCounter++`,
`localJobStat.bytesProcessed += jobFileSize`, append the line, and on
`batchCounter == 0` (wrap-around) flush the batch and add
`math.MaxUint8 + 1 = 256` to `filesProcessed`. -/
def successStep (st : WorkerState) (j : Job) (crc : String) : WorkerState :=
  let counter := (st.batchCounter + 1) % 256
  let st' : WorkerState :=
    { st with
      batchCounter := counter
      bytesProcessed := st.bytesProcessed + j.size
      stdoutBuffer := st.stdoutBuffer ++ [outputLine j crc] }
  if counter = 0 then
    { st' with
      flushed := st'.flushed ++ st'.stdoutBuffer
      stdoutBuffer := []
      filesProcessed := st'.filesProcessed + 256 }
  else st'

/-- The error path of the loop body: `printErr(j.path, err); continue`. -/
def errorStep (st : WorkerState) (path : String) (res : CRCResult) : WorkerState :=
  { st with errLog := st.errLog ++ crcErrorLog path res }

/-- The `for j := range g_jobQueue` loop.  The queue is modelled by the list
of jobs this worker receives, each paired with its file's read behaviour. -/
def runJobs (bufLen bufferSize : Nat) : WorkerState → List (Job × FileRead) → WorkerState
  | st, [] => st
  | st, jf :: rest =>
    match CRCReader jf.1 jf.2 bufLen bufferSize with
    | .ok crc => runJobs bufLen bufferSize (successStep st jf.1 crc) rest
    | .panicked => { st with panicked := true }
    | res => runJobs bufLen bufferSize (errorStep st jf.1.path res) rest

/-- After the loop: `if batchCounter > 0` flush the remaining lines and add
the counter to `filesProcessed`.  (Skipped if the goroutine panicked.) -/
def finishWorker (st : WorkerState) : WorkerState :=
  if st.panicked then st
  else if 0 < st.batchCounter then
    { st with
      flushed := st.flushed ++ st.stdoutBuffer
      stdoutBuffer := []
      filesProcessed := st.filesProcessed + (st.batchCounter : Int) }
  else st

/-- Model of `fileHandler(jobId, bufferSizeKB, jobStats)` for one worker:
`fileReadBufferSize = 1024 * bufferSizeKB`, run the loop, final flush.  The
returned state's `filesProcessed`/`bytesProcessed` are what the worker
writes into `jobStats[jobId]`. -/
def fileHandler (bufferSizeKB : Nat) (jobs : List (Job × FileRead)) : WorkerState :=
  finishWorker (runJobs (1024 * bufferSizeKB) (1024 * bufferSizeKB) initialWorkerState jobs)

/-! ### Success-projection of a job list (spec side of the worker claims) -/

/-- The result lines of the jobs that succeed, in order. -/
def successLines (bufLen bufferSize : Nat) (jobs : List (Job × FileRead)) : List String :=
  jobs.filterMap fun jf =>
    match CRCReader jf.1 jf.2 bufLen bufferSize with
    | .ok crc => some (outputLine jf.1 crc)
    | _ => none

/-- The number of successfully processed jobs. -/
def successCount (bufLen bufferSize : Nat) (jobs : List (Job × FileRead)) : Nat :=
  (successLines bufLen bufferSize jobs).length

/-- The total declared size of the successfully processed jobs. -/
def successBytes (bufLen bufferSize : Nat) (jobs : List (Job × FileRead)) : Int :=
  (jobs.filterMap fun jf =>
    match CRCReader jf.1 jf.2 bufLen bufferSize with
    | .ok _ => some jf.1.size
    | _ => none).sum

/-! ## `enqueueJob`: the walk callback -/

/-- Classification of a filesystem entry, from `info.Mode()`:
`IsDir`, `IsRegular`, or neither (symlink, device, ...). -/
inductive EntryKind where
  | dir
  | regular
  | irregular
deriving DecidableEq

/-- The `os.FileInfo` fields `enqueueJob` consults: `Mode()` and `Size()`. -/
structure FsFileInfo where
  kind : EntryKind
  size : Int
deriving DecidableEq

/-- One callback invocation from `filepath.Walk`: either the walk reports an
error for the entry (`info` may then be `nil`), or it supplies the metadata. -/
inductive WalkEntry where
  | errored (path : String) (info : Option FsFileInfo) (msg : String)
  | found (path : String) (info : FsFileInfo)
deriving DecidableEq

/-- Model of `enqueueJob(path, info, err)`: the pair of stderr lines written
and jobs pushed onto `g_jobQueue` (`enqueueJob` always returns `nil`, so the
walk continues in every case). -/
def enqueueJob : WalkEntry → List String × List Job
  | .errored path info msg =>
    let nodeType :=
      match info with
      | some i => if i.kind = EntryKind.dir then "dir: " else "file: "
      | none => "file: "
    ([nodeType ++ "error: '" ++ path ++ "': " ++ msg ++ "\n"], [])
  | .found path info =>
    match info.kind with
    | .dir => (["entering dir: " ++ path ++ "\n"], [])
    | .irregular => (["ignoring: " ++ path ++ "\n"], [])
    | .regular => ([], [{ path := path, size := info.size }])

/-- A whole walk: `filepath.Walk` calls `enqueueJob` once per entry, in
order; stderr lines and queued jobs accumulate. -/
def walkModel (entries : List WalkEntry) : List String × List Job :=
  entries.foldl
    (fun acc e =>
      let r := enqueueJob e
      (acc.1 ++ r.1, acc.2 ++ r.2))
    ([], [])

/-! ## `sanityCheck` and the shape of `main` -/

/-- The hard-coded self-test input (`sha512("Hello World!")` rendered as hex). -/
def sanityCheckData : String :=
  "861844d6704e8573fec34d967e20bcfef3d424cf48be04e6dc08f2bd58c729743371015ead891cc3cf1c9d34b49264b510751b1ff9e537937bc46b5d6ff4ecc8"

/-- The hard-coded expected self-test output. -/
def expectedCorrectChecksum : String := "C7DdPQ=="

/-- The value `sanityCheck` computes: `crc32.Update(uint32(0), table, []byte(data))`,
big-endian packed and base64 encoded. -/
def sanityCheckCalculated : String :=
  crcChecksumString (crc32Update 0 (stringBytes sanityCheckData))

/-- Exit decision of `sanityCheck` as a function of the calculated string:
mismatch prints a fatal diagnostic and calls `os.Exit(2)`. -/
def sanityCheckExitOf (calculated : String) : Option Nat :=
  if expectedCorrectChecksum ≠ calculated then some 2 else none

/-- The exit taken by the program's `sanityCheck` (run from `init`, before
`main`). -/
def sanityCheckExit : Option Nat := sanityCheckExitOf sanityCheckCalculated

/-- Exit code of `main` when no paths are given (`os.Exit(1)`). -/
def missingPathsExitCode : Nat := 1

/-- Summing of `jobStats` in `main`:
`for _, item := range jobStats { totalFilesProcessed += item.filesProcessed }`. -/
def totalFilesProcessed (stats : List WorkerState) : Int :=
  stats.foldl (fun acc s => acc + s.filesProcessed) 0

/-- Summing of bytes in the same loop. -/
def totalBytesProcessed (stats : List WorkerState) : Int :=
  stats.foldl (fun acc s => acc + s.bytesProcessed) 0

/-- The `jobStats` slots after all workers terminated: worker `i` runs
`fileHandler` on the sub-list of jobs it receives from the queue and writes
its final state once into slot `i`. -/
def workerStates (bufferSizeKB : Nat) (assignment : List (List (Job × FileRead))) :
    List WorkerState :=
  assignment.map (fileHandler bufferSizeKB)

/-- Outcome of a run, with the `init`-time self-test gate made explicit. -/
inductive RunOutcome where
  | sanityAborted (exitCode : Nat)
  | ran (stats : List WorkerState)
deriving DecidableEq

/-- The run as a function of the self-test's calculated string: a mismatch
aborts (exit 2) before any worker or walk starts; otherwise the pipeline
runs. -/
def runWithSanityOf (calculated : String) (bufferSizeKB : Nat)
    (assignment : List (List (Job × FileRead))) : RunOutcome :=
  match sanityCheckExitOf calculated with
  | some code => .sanityAborted code
  | none => .ran (workerStates bufferSizeKB assignment)

/-- The program's actual run. -/
def runPipeline (bufferSizeKB : Nat) (assignment : List (List (Job × FileRead))) :
    RunOutcome :=
  runWithSanityOf sanityCheckCalculated bufferSizeKB assignment

/-! ## Theorems -/

/-- Witness for C1 at a concrete chunking of the bytes of "Hello". -/
theorem crc_chunked_update_eq_ref_witness :
    (∀ b ∈ [[72, 101], [108, 108, 111]].flatten, b < 256)
    ∧ [[72, 101], [108, 108, 111]].foldl crc32Update 0
        = crc32cRef [[72, 101], [108, 108, 111]].flatten :=
  ⟨by decide, crc_chunked_update_eq_ref [[72, 101], [108, 108, 111]] (by decide)⟩

set_option maxRecDepth 2000 in
/-- The self-test computation comes out at the hard-coded literal: the CRC32C
of the 128-byte hex string, big-endian packed and base64 encoded, is
"C7DdPQ==".  (Evaluated in 16-byte chunks through `crc32Update_append`.) -/
theorem sanityCheckCalculated_eq : sanityCheckCalculated = expectedCorrectChecksum := by
  have hsplit : stringBytes sanityCheckData =
      stringBytes "861844d6704e8573" ++ (stringBytes "fec34d967e20bcfe" ++
      (stringBytes "f3d424cf48be04e6" ++ (stringBytes "dc08f2bd58c72974" ++
      (stringBytes "3371015ead891cc3" ++ (stringBytes "cf1c9d34b49264b5" ++
      (stringBytes "10751b1ff9e53793" ++ stringBytes "7bc46b5d6ff4ecc8")))))) := by decide
  have h1 : crc32Update 0 (stringBytes "861844d6704e8573") = 0x74533179 := by decide
  have h2 : crc32Update 0x74533179 (stringBytes "fec34d967e20bcfe") = 0x8b72b98b := by decide
  have h3 : crc32Update 0x8b72b98b (stringBytes "f3d424cf48be04e6") = 0xdd0afab5 := by decide
  have h4 : crc32Update 0xdd0afab5 (stringBytes "dc08f2bd58c72974") = 0xe482a629 := by decide
  have h5 : crc32Update 0xe482a629 (stringBytes "3371015ead891cc3") = 0x7f840db7 := by decide
  have h6 : crc32Update 0x7f840db7 (stringBytes "cf1c9d34b49264b5") = 0xe9e4f73c := by decide
  have h7 : crc32Update 0xe9e4f73c (stringBytes "10751b1ff9e53793") = 0x1be04bc7 := by decide
  have h8 : crc32Update 0x1be04bc7 (stringBytes "7bc46b5d6ff4ecc8") = 0x0bb0dd3d := by decide
  unfold sanityCheckCalculated
  rw [hsplit, ← crc32Update_append, h1, ← crc32Update_append, h2, ← crc32Update_append, h3,
    ← crc32Update_append, h4, ← crc32Update_append, h5, ← crc32Update_append, h6,
    ← crc32Update_append, h7, h8]
  decide

/-- C7: a self-test mismatch aborts the run before any work with exit code 2,
which differs from 0 and from the missing-paths exit code 1; the actual
computed value matches the hard-coded literal, so the real run proceeds. -/
theorem sanityCheck_gate :
    (∀ s, s ≠ expectedCorrectChecksum →
      ∀ (kb : Nat) (asg : List (List (Job × FileRead))),
        runWithSanityOf s kb asg = .sanityAborted 2)
    ∧ sanityCheckCalculated = expectedCorrectChecksum
    ∧ (∀ (kb : Nat) (asg : List (List (Job × FileRead))),
        runPipeline kb asg = .ran (workerStates kb asg))
    ∧ 2 ≠ missingPathsExitCode ∧ (2 : Nat) ≠ 0 := by
  refine ⟨?_, sanityCheckCalculated_eq, ?_, by decide, by decide⟩
  · intro s hs kb asg
    unfold runWithSanityOf sanityCheckExitOf
    rw [if_pos (fun h => hs h.symm)]
  · intro kb asg
    unfold runPipeline runWithSanityOf sanityCheckExitOf
    rw [sanityCheckCalculated_eq, if_neg (fun h => h rfl)]

/-- Witness for C7: a wrong checksum string aborts with exit code 2. -/
theorem sanityCheck_gate_witness :
    runWithSanityOf "XXXXXXXX" 1 [] = .sanityAborted 2 :=
  sanityCheck_gate.1 "XXXXXXXX" (by decide) 1 []

/-- C2: when the stream reaches `io.EOF` with a byte count different from the
declared size, `CRCReader` fails with the size-mismatch error, and the worker
loop only logs `printErr`'s line and moves on to the remaining jobs — the
batch buffer, the flushed output and both statistics are untouched. -/
theorem sizeMismatch_skips (j : Job) (chunks : List (List Nat)) (bufLen bufferSize : Nat)
    (st : WorkerState) (rest : List (Job × FileRead))
    (h : j.size ≠ (chunks.foldl (crcReadStep bufferSize) (0, 0)).2) :
    CRCReader j (.content chunks .eof) bufLen bufferSize = .sizeMismatch
    ∧ runJobs bufLen bufferSize st ((j, .content chunks .eof) :: rest)
        = runJobs bufLen bufferSize
            { st with errLog := st.errLog ++ [printErrLine j.path sizeMismatchMsg] } rest := by
  have hres : CRCReader j (.content chunks .eof) bufLen bufferSize = .sizeMismatch := by
    show (if j.size ≠ (chunks.foldl (crcReadStep bufferSize) (0, 0)).2 then CRCResult.sizeMismatch
        else if 12 ≤ bufLen then
          CRCResult.ok (crcChecksumString (chunks.foldl (crcReadStep bufferSize) (0, 0)).1)
        else CRCResult.panicked) = CRCResult.sizeMismatch
    rw [if_pos h]
  refine ⟨hres, ?_⟩
  simp only [runJobs, hres]
  rfl

/-- Witness for C2: declared size 5, only 2 bytes before end-of-stream. -/
theorem sizeMismatch_skips_witness :
    CRCReader ⟨"f", 5⟩ (.content [[1, 2]] .eof) 1024 1024 = .sizeMismatch
    ∧ runJobs 1024 1024 initialWorkerState [(⟨"f", 5⟩, .content [[1, 2]] .eof)]
        = runJobs 1024 1024
            { initialWorkerState with
              errLog := initialWorkerState.errLog ++ [printErrLine "f" sizeMismatchMsg] } [] :=
  sizeMismatch_skips ⟨"f", 5⟩ [[1, 2]] 1024 1024 initialWorkerState [] (by decide)

/-- C9: the EOF branch's buffer reuse (`buffer[0:4]` and `buffer[4:12]`) is in
bounds exactly when the buffer holds at least 12 bytes; any configured buffer
size of at least 1 KB guarantees this; with a zero-length buffer the success
path can never be taken. -/
theorem crcReader_buffer_precondition :
    (∀ (j : Job) (chunks : List (List Nat)) (bufLen bufferSize : Nat),
        12 ≤ bufLen →
        j.size = (chunks.foldl (crcReadStep bufferSize) (0, 0)).2 →
        CRCReader j (.content chunks .eof) bufLen bufferSize
          = .ok (crcChecksumString (chunks.foldl (crcReadStep bufferSize) (0, 0)).1))
    ∧ (∀ kb : Nat, 1 ≤ kb → 12 ≤ 1024 * kb)
    ∧ (∀ (j : Job) (chunks : List (List Nat)) (theEnd : ReadEnd) (bufferSize : Nat)
        (s : String), CRCReader j (.content chunks theEnd) 0 bufferSize ≠ .ok s) := by
  refine ⟨?_, ?_, ?_⟩
  · intro j chunks bufLen bufferSize hbuf hsz
    unfold CRCReader
    simp [hsz, hbuf]
  · intro kb hkb
    calc 12 ≤ 1024 * 1 := by omega
    _ ≤ 1024 * kb := Nat.mul_le_mul_left 1024 hkb
  · intro j chunks theEnd bufferSize s
    cases theEnd with
    | eof =>
      show (if j.size ≠ (chunks.foldl (crcReadStep bufferSize) (0, 0)).2 then
          CRCResult.sizeMismatch
        else if (12 : Nat) ≤ 0 then
          CRCResult.ok (crcChecksumString (chunks.foldl (crcReadStep bufferSize) (0, 0)).1)
        else CRCResult.panicked) ≠ CRCResult.ok s
      by_cases h : j.size ≠ (chunks.foldl (crcReadStep bufferSize) (0, 0)).2
      · rw [if_pos h]
        exact fun hc => CRCResult.noConfusion hc
      · rw [if_neg h, if_neg (by omega)]
        exact fun hc => CRCResult.noConfusion hc
    | readError msg => exact fun hc => CRCResult.noConfusion hc

/-- Witness for C9: a 12-byte buffer succeeds on a 1-byte file; a 1 KB
configuration clears the bound; a zero-length buffer never returns `ok`. -/
theorem crcReader_buffer_precondition_witness :
    CRCReader ⟨"f", 1⟩ (.content [[7]] .eof) 12 4
      = .ok (crcChecksumString (([[7]] : List (List Nat)).foldl (crcReadStep 4) (0, 0)).1)
    ∧ 12 ≤ 1024 * 1
    ∧ CRCReader ⟨"f", 1⟩ (.content [[7]] .eof) 0 4 ≠ .ok "AAAAAAAA" :=
  ⟨crcReader_buffer_precondition.1 ⟨"f", 1⟩ [[7]] 12 4 (by decide) (by decide),
   crcReader_buffer_precondition.2.1 1 (by decide),
   crcReader_buffer_precondition.2.2 ⟨"f", 1⟩ [[7]] .eof 4 "AAAAAAAA"⟩

/-! ### Step lemmas for the worker loop -/

/-- With a buffer of at least 12 bytes, `CRCReader` cannot panic. -/
theorem CRCReader_ne_panicked (j : Job) (fr : FileRead) (bufLen bufferSize : Nat)
    (hbuf : 12 ≤ bufLen) : CRCReader j fr bufLen bufferSize ≠ .panicked := by
  cases fr with
  | openError msg => exact fun hc => CRCResult.noConfusion hc
  | content chunks theEnd =>
    cases theEnd with
    | readError msg => exact fun hc => CRCResult.noConfusion hc
    | eof =>
      show (if j.size ≠ (chunks.foldl (crcReadStep bufferSize) (0, 0)).2 then
          CRCResult.sizeMismatch
        else if 12 ≤ bufLen then
          CRCResult.ok (crcChecksumString (chunks.foldl (crcReadStep bufferSize) (0, 0)).1)
        else CRCResult.panicked) ≠ CRCResult.panicked
      by_cases h : j.size ≠ (chunks.foldl (crcReadStep bufferSize) (0, 0)).2
      · rw [if_pos h]
        exact fun hc => CRCResult.noConfusion hc
      · rw [if_neg h, if_pos hbuf]
        exact fun hc => CRCResult.noConfusion hc

theorem successLines_cons_ok (bufLen bufferSize : Nat) (jf : Job × FileRead)
    (rest : List (Job × FileRead)) (crc : String)
    (h : CRCReader jf.1 jf.2 bufLen bufferSize = .ok crc) :
    successLines bufLen bufferSize (jf :: rest)
      = outputLine jf.1 crc :: successLines bufLen bufferSize rest := by
  unfold successLines
  simp only [List.filterMap_cons, h]

theorem successLines_cons_err (bufLen bufferSize : Nat) (jf : Job × FileRead)
    (rest : List (Job × FileRead)) (r : CRCResult)
    (h : CRCReader jf.1 jf.2 bufLen bufferSize = r) (hok : ∀ crc, r ≠ .ok crc) :
    successLines bufLen bufferSize (jf :: rest) = successLines bufLen bufferSize rest := by
  unfold successLines
  cases r with
  | ok crc => exact absurd rfl (hok crc)
  | openErr msg => simp only [List.filterMap_cons, h]
  | sizeMismatch => simp only [List.filterMap_cons, h]
  | readErr msg => simp only [List.filterMap_cons, h]
  | panicked => simp only [List.filterMap_cons, h]

theorem successCount_cons_ok (bufLen bufferSize : Nat) (jf : Job × FileRead)
    (rest : List (Job × FileRead)) (crc : String)
    (h : CRCReader jf.1 jf.2 bufLen bufferSize = .ok crc) :
    successCount bufLen bufferSize (jf :: rest) = successCount bufLen bufferSize rest + 1 := by
  unfold successCount
  rw [successLines_cons_ok bufLen bufferSize jf rest crc h, List.length_cons]

theorem successCount_cons_err (bufLen bufferSize : Nat) (jf : Job × FileRead)
    (rest : List (Job × FileRead)) (r : CRCResult)
    (h : CRCReader jf.1 jf.2 bufLen bufferSize = r) (hok : ∀ crc, r ≠ .ok crc) :
    successCount bufLen bufferSize (jf :: rest) = successCount bufLen bufferSize rest := by
  unfold successCount
  rw [successLines_cons_err bufLen bufferSize jf rest r h hok]

theorem successBytes_cons_ok (bufLen bufferSize : Nat) (jf : Job × FileRead)
    (rest : List (Job × FileRead)) (crc : String)
    (h : CRCReader jf.1 jf.2 bufLen bufferSize = .ok crc) :
    successBytes bufLen bufferSize (jf :: rest)
      = jf.1.size + successBytes bufLen bufferSize rest := by
  unfold successBytes
  simp only [List.filterMap_cons, h, List.sum_cons]

theorem successBytes_cons_err (bufLen bufferSize : Nat) (jf : Job × FileRead)
    (rest : List (Job × FileRead)) (r : CRCResult)
    (h : CRCReader jf.1 jf.2 bufLen bufferSize = r) (hok : ∀ crc, r ≠ .ok crc) :
    successBytes bufLen bufferSize (jf :: rest) = successBytes bufLen bufferSize rest := by
  unfold successBytes
  cases r with
  | ok crc => exact absurd rfl (hok crc)
  | openErr msg => simp only [List.filterMap_cons, h]
  | sizeMismatch => simp only [List.filterMap_cons, h]
  | readErr msg => simp only [List.filterMap_cons, h]
  | panicked => simp only [List.filterMap_cons, h]

theorem runJobs_cons_ok (bufLen bufferSize : Nat) (st : WorkerState) (jf : Job × FileRead)
    (rest : List (Job × FileRead)) (crc : String)
    (h : CRCReader jf.1 jf.2 bufLen bufferSize = .ok crc) :
    runJobs bufLen bufferSize st (jf :: rest)
      = runJobs bufLen bufferSize (successStep st jf.1 crc) rest := by
  simp only [runJobs, h]

theorem runJobs_cons_err (bufLen bufferSize : Nat) (st : WorkerState) (jf : Job × FileRead)
    (rest : List (Job × FileRead)) (r : CRCResult)
    (h : CRCReader jf.1 jf.2 bufLen bufferSize = r) (hok : ∀ crc, r ≠ .ok crc)
    (hp : r ≠ .panicked) :
    runJobs bufLen bufferSize st (jf :: rest)
      = runJobs bufLen bufferSize (errorStep st jf.1.path r) rest := by
  cases r with
  | ok crc => exact absurd rfl (hok crc)
  | panicked => exact absurd rfl hp
  | openErr msg => simp only [runJobs, h]
  | sizeMismatch => simp only [runJobs, h]
  | readErr msg => simp only [runJobs, h]

theorem successStep_no_wrap (st : WorkerState) (j : Job) (crc : String)
    (h : (st.batchCounter + 1) % 256 ≠ 0) :
    successStep st j crc =
      { st with
        batchCounter := (st.batchCounter + 1) % 256
        bytesProcessed := st.bytesProcessed + j.size
        stdoutBuffer := st.stdoutBuffer ++ [outputLine j crc] } := by
  simp only [successStep]
  rw [if_neg h]

theorem successStep_wrap (st : WorkerState) (j : Job) (crc : String)
    (h : (st.batchCounter + 1) % 256 = 0) :
    successStep st j crc =
      { st with
        batchCounter := 0
        bytesProcessed := st.bytesProcessed + j.size
        stdoutBuffer := []
        flushed := st.flushed ++ (st.stdoutBuffer ++ [outputLine j crc])
        filesProcessed := st.filesProcessed + 256 } := by
  simp only [successStep]
  rw [if_pos h, h]

/-- Invariant of the worker loop: starting from a non-panicked state with a
valid batch counter (`< 256`, and an empty pending buffer whenever it is 0),
running any job list leaves the concatenation `flushed ++ stdoutBuffer`
extended by exactly the success lines, sets the counter to the success count
mod 256, adds 256 per counter wrap to `filesProcessed`, and adds the
successful sizes to `bytesProcessed`. -/
theorem runJobs_spec (bufLen bufferSize : Nat) (hbuf : 12 ≤ bufLen) :
    ∀ (jobs : List (Job × FileRead)) (st : WorkerState),
      st.panicked = false → st.batchCounter < 256 →
      (st.batchCounter = 0 → st.stdoutBuffer = []) →
      (runJobs bufLen bufferSize st jobs).panicked = false
      ∧ (runJobs bufLen bufferSize st jobs).flushed
          ++ (runJobs bufLen bufferSize st jobs).stdoutBuffer
          = st.flushed ++ st.stdoutBuffer ++ successLines bufLen bufferSize jobs
      ∧ (runJobs bufLen bufferSize st jobs).batchCounter
          = (st.batchCounter + successCount bufLen bufferSize jobs) % 256
      ∧ ((runJobs bufLen bufferSize st jobs).batchCounter = 0 →
          (runJobs bufLen bufferSize st jobs).stdoutBuffer = [])
      ∧ (runJobs bufLen bufferSize st jobs).filesProcessed
          = st.filesProcessed
            + ((256 * ((st.batchCounter + successCount bufLen bufferSize jobs) / 256) : Nat) : Int)
      ∧ (runJobs bufLen bufferSize st jobs).bytesProcessed
          = st.bytesProcessed + successBytes bufLen bufferSize jobs := by
  intro jobs
  induction jobs with
  | nil =>
    intro st hp hc hb
    refine ⟨hp, ?_, ?_, hb, ?_, ?_⟩
    · show st.flushed ++ st.stdoutBuffer = st.flushed ++ st.stdoutBuffer ++ []
      rw [List.append_nil]
    · show st.batchCounter = (st.batchCounter + 0) % 256
      omega
    · show st.filesProcessed = st.filesProcessed + ((256 * ((st.batchCounter + 0) / 256) : Nat) : Int)
      have : (st.batchCounter + 0) / 256 = 0 := by omega
      rw [this]
      simp
    · show st.bytesProcessed = st.bytesProcessed + 0
      rw [add_zero]
  | cons jf rest ih =>
    intro st hp hc hb
    cases hres : CRCReader jf.1 jf.2 bufLen bufferSize with
    | panicked => exact absurd hres (CRCReader_ne_panicked jf.1 jf.2 bufLen bufferSize hbuf)
    | ok crc =>
      rw [runJobs_cons_ok bufLen bufferSize st jf rest crc hres,
        successLines_cons_ok bufLen bufferSize jf rest crc hres,
        successCount_cons_ok bufLen bufferSize jf rest crc hres,
        successBytes_cons_ok bufLen bufferSize jf rest crc hres]
      by_cases hwrap : (st.batchCounter + 1) % 256 = 0
      · rw [successStep_wrap st jf.1 crc hwrap]
        obtain ⟨ih1, ih2, ih3, ih4, ih5, ih6⟩ :=
          ih { st with
                batchCounter := 0
                bytesProcessed := st.bytesProcessed + jf.1.size
                stdoutBuffer := []
                flushed := st.flushed ++ (st.stdoutBuffer ++ [outputLine jf.1 crc])
                filesProcessed := st.filesProcessed + 256 }
            hp (by show (0 : Nat) < 256; omega) (fun _ => rfl)
        dsimp only at ih2 ih3 ih5 ih6
        refine ⟨ih1, ?_, ?_, ih4, ?_, ?_⟩
        · rw [ih2]
          simp [List.append_assoc]
        · rw [ih3]
          omega
        · rw [ih5]
          omega
        · rw [ih6]
          ring
      · rw [successStep_no_wrap st jf.1 crc hwrap]
        obtain ⟨ih1, ih2, ih3, ih4, ih5, ih6⟩ :=
          ih { st with
                batchCounter := (st.batchCounter + 1) % 256
                bytesProcessed := st.bytesProcessed + jf.1.size
                stdoutBuffer := st.stdoutBuffer ++ [outputLine jf.1 crc] }
            hp (by show (st.batchCounter + 1) % 256 < 256; omega) (fun h => absurd h hwrap)
        dsimp only at ih2 ih3 ih5 ih6
        refine ⟨ih1, ?_, ?_, ih4, ?_, ?_⟩
        · rw [ih2]
          simp [List.append_assoc]
        · rw [ih3]
          omega
        · rw [ih5]
          omega
        · rw [ih6]
          ring
    | openErr msg =>
      have hok : ∀ c, CRCResult.openErr msg ≠ CRCResult.ok c :=
        fun c hc' => CRCResult.noConfusion hc'
      rw [runJobs_cons_err bufLen bufferSize st jf rest _ hres hok
          (fun hc' => CRCResult.noConfusion hc'),
        successLines_cons_err bufLen bufferSize jf rest _ hres hok,
        successCount_cons_err bufLen bufferSize jf rest _ hres hok,
        successBytes_cons_err bufLen bufferSize jf rest _ hres hok]
      exact ih (errorStep st jf.1.path (CRCResult.openErr msg)) hp hc hb
    | sizeMismatch =>
      have hok : ∀ c, CRCResult.sizeMismatch ≠ CRCResult.ok c :=
        fun c hc' => CRCResult.noConfusion hc'
      rw [runJobs_cons_err bufLen bufferSize st jf rest _ hres hok
          (fun hc' => CRCResult.noConfusion hc'),
        successLines_cons_err bufLen bufferSize jf rest _ hres hok,
        successCount_cons_err bufLen bufferSize jf rest _ hres hok,
        successBytes_cons_err bufLen bufferSize jf rest _ hres hok]
      exact ih (errorStep st jf.1.path CRCResult.sizeMismatch) hp hc hb
    | readErr msg =>
      have hok : ∀ c, CRCResult.readErr msg ≠ CRCResult.ok c :=
        fun c hc' => CRCResult.noConfusion hc'
      rw [runJobs_cons_err bufLen bufferSize st jf rest _ hres hok
          (fun hc' => CRCResult.noConfusion hc'),
        successLines_cons_err bufLen bufferSize jf rest _ hres hok,
        successCount_cons_err bufLen bufferSize jf rest _ hres hok,
        successBytes_cons_err bufLen bufferSize jf rest _ hres hok]
      exact ih (errorStep st jf.1.path (CRCResult.readErr msg)) hp hc hb

/-! ### From the loop invariant to `fileHandler` -/

theorem finishWorker_pos (st : WorkerState) (hp : st.panicked = false)
    (h : 0 < st.batchCounter) :
    finishWorker st =
      { st with
        flushed := st.flushed ++ st.stdoutBuffer
        stdoutBuffer := []
        filesProcessed := st.filesProcessed + (st.batchCounter : Int) } := by
  unfold finishWorker
  rw [hp, if_neg Bool.false_ne_true, if_pos h]

theorem finishWorker_zero (st : WorkerState) (hp : st.panicked = false)
    (h : st.batchCounter = 0) :
    finishWorker st = st := by
  unfold finishWorker
  rw [hp, if_neg Bool.false_ne_true, if_neg (by omega)]

/-- What one whole worker produces: with at least 1 KB of buffer, the flushed
output is exactly the success lines, `filesProcessed` the success count, and
`bytesProcessed` the successful sizes. -/
theorem fileHandler_spec (kb : Nat) (hkb : 1 ≤ kb) (jobs : List (Job × FileRead)) :
    (fileHandler kb jobs).flushed = successLines (1024 * kb) (1024 * kb) jobs
    ∧ (fileHandler kb jobs).filesProcessed
        = ((successCount (1024 * kb) (1024 * kb) jobs : Nat) : Int)
    ∧ (fileHandler kb jobs).bytesProcessed = successBytes (1024 * kb) (1024 * kb) jobs := by
  have hbuf : 12 ≤ 1024 * kb := le_trans (by omega) (Nat.mul_le_mul_left 1024 hkb)
  obtain ⟨h1, h2, h3, h4, h5, h6⟩ :=
    runJobs_spec (1024 * kb) (1024 * kb) hbuf jobs initialWorkerState rfl
      (by show (0 : Nat) < 256; omega) (fun _ => rfl)
  have hi1 : initialWorkerState.flushed = [] := rfl
  have hi2 : initialWorkerState.stdoutBuffer = [] := rfl
  have hi3 : initialWorkerState.batchCounter = 0 := rfl
  have hi4 : initialWorkerState.filesProcessed = 0 := rfl
  have hi5 : initialWorkerState.bytesProcessed = 0 := rfl
  rw [hi1, hi2, List.nil_append, List.nil_append] at h2
  rw [hi3, Nat.zero_add] at h3
  rw [hi3, hi4, Nat.zero_add, zero_add] at h5
  rw [hi5, zero_add] at h6
  unfold fileHandler
  by_cases hzero :
      (runJobs (1024 * kb) (1024 * kb) initialWorkerState jobs).batchCounter = 0
  · rw [finishWorker_zero _ h1 hzero]
    refine ⟨?_, ?_, h6⟩
    · rw [h4 hzero, List.append_nil] at h2
      exact h2
    · rw [hzero] at h3
      omega
  · rw [finishWorker_pos _ h1 (by omega)]
    refine ⟨?_, ?_, ?_⟩
    · dsimp only
      exact h2
    · dsimp only
      rw [h5, h3]
      push_cast
      omega
    · exact h6

/-- C5: a worker's flushed output is exactly the list of result lines of its
successfully processed items, in order — each line exactly once, whether the
flush happened at a 256-line batch boundary or at shutdown, and also when the
number of successes is an exact multiple of 256 (then the final flush is
empty and nothing is lost or duplicated). -/
theorem worker_batched_output_exact (kb : Nat) (hkb : 1 ≤ kb)
    (jobs : List (Job × FileRead)) :
    (fileHandler kb jobs).flushed = successLines (1024 * kb) (1024 * kb) jobs :=
  (fileHandler_spec kb hkb jobs).1

/-- Witness for C5 on a concrete one-job queue. -/
theorem worker_batched_output_exact_witness :
    (fileHandler 1 [(⟨"a", 0⟩, .content [] .eof)]).flushed
      = successLines 1024 1024 [(⟨"a", 0⟩, .content [] .eof)] :=
  worker_batched_output_exact 1 (by decide) [(⟨"a", 0⟩, .content [] .eof)]

/-- C10: although `filesProcessed` is never incremented per item, a worker
with `k` successes records exactly `k`: the `uint8` batch counter wraps to 0
every 256 successes, contributing 256 each time, and the residue is added at
shutdown — `256 * (k / 256) + k % 256 = k`. -/
theorem worker_filesProcessed_counts (kb : Nat) (hkb : 1 ≤ kb)
    (jobs : List (Job × FileRead)) :
    (fileHandler kb jobs).filesProcessed
        = ((successCount (1024 * kb) (1024 * kb) jobs : Nat) : Int)
    ∧ 256 * (successCount (1024 * kb) (1024 * kb) jobs / 256)
        + successCount (1024 * kb) (1024 * kb) jobs % 256
        = successCount (1024 * kb) (1024 * kb) jobs :=
  ⟨(fileHandler_spec kb hkb jobs).2.1, by omega⟩

/-- Witness for C10 on a concrete one-job queue. -/
theorem worker_filesProcessed_counts_witness :
    (fileHandler 1 [(⟨"a", 0⟩, .content [[]] .eof)]).filesProcessed
        = ((successCount 1024 1024 [(⟨"a", 0⟩, .content [[]] .eof)] : Nat) : Int)
    ∧ 256 * (successCount 1024 1024 [(⟨"a", 0⟩, .content [[]] .eof)] / 256)
        + successCount 1024 1024 [(⟨"a", 0⟩, .content [[]] .eof)] % 256
        = successCount 1024 1024 [(⟨"a", 0⟩, .content [[]] .eof)] :=
  worker_filesProcessed_counts 1 (by decide) [(⟨"a", 0⟩, .content [[]] .eof)]

/-- Folding an accumulating addition equals the initial value plus a mapped
sum. -/
theorem foldl_add_proj {α : Type _} (g : α → Int) :
    ∀ (l : List α) (a : Int), l.foldl (fun acc s => acc + g s) a = a + (l.map g).sum := by
  intro l
  induction l with
  | nil =>
    intro a
    simp
  | cons x xs ih =>
    intro a
    simp only [List.foldl_cons, List.map_cons, List.sum_cons]
    rw [ih, add_assoc]

/-- C8: after all workers have terminated, the aggregated totals are the sums
over the worker slots, and slot `i` holds exactly worker `i`'s final state —
its success count and the sum of its successful items' declared sizes. -/
theorem aggregated_totals (kb : Nat) (hkb : 1 ≤ kb)
    (assignment : List (List (Job × FileRead))) :
    totalFilesProcessed (workerStates kb assignment)
      = (assignment.map
          (fun jobs => ((successCount (1024 * kb) (1024 * kb) jobs : Nat) : Int))).sum
    ∧ totalBytesProcessed (workerStates kb assignment)
      = (assignment.map (fun jobs => successBytes (1024 * kb) (1024 * kb) jobs)).sum
    ∧ ∀ (i : Nat), i < assignment.length →
        (workerStates kb assignment).getD i initialWorkerState
          = fileHandler kb (assignment.getD i [])
        ∧ ((workerStates kb assignment).getD i initialWorkerState).filesProcessed
          = ((successCount (1024 * kb) (1024 * kb) (assignment.getD i []) : Nat) : Int)
        ∧ ((workerStates kb assignment).getD i initialWorkerState).bytesProcessed
          = successBytes (1024 * kb) (1024 * kb) (assignment.getD i []) := by
  have hslot : ∀ (i : Nat), i < assignment.length →
      (workerStates kb assignment).getD i initialWorkerState
        = fileHandler kb (assignment.getD i []) := by
    intro i hi
    have hlen : i < (workerStates kb assignment).length := by
      simpa [workerStates] using hi
    rw [List.getD_eq_getElem _ _ hlen, List.getD_eq_getElem _ _ hi]
    simp [workerStates]
  refine ⟨?_, ?_, fun i hi => ⟨hslot i hi, ?_, ?_⟩⟩
  · unfold totalFilesProcessed workerStates
    rw [foldl_add_proj WorkerState.filesProcessed, List.map_map, zero_add]
    refine congrArg List.sum (List.map_congr_left ?_)
    intro jobs _
    exact (fileHandler_spec kb hkb jobs).2.1
  · unfold totalBytesProcessed workerStates
    rw [foldl_add_proj WorkerState.bytesProcessed, List.map_map, zero_add]
    refine congrArg List.sum (List.map_congr_left ?_)
    intro jobs _
    exact (fileHandler_spec kb hkb jobs).2.2
  · rw [hslot i hi]
    exact (fileHandler_spec kb hkb (assignment.getD i [])).2.1
  · rw [hslot i hi]
    exact (fileHandler_spec kb hkb (assignment.getD i [])).2.2

/-- Witness for C8 on a concrete two-worker assignment. -/
theorem aggregated_totals_witness :
    totalFilesProcessed (workerStates 1 [[(⟨"a", 0⟩, .content [] .eof)], []])
      = ([[(⟨"a", 0⟩, .content [] .eof)], []].map
          (fun jobs => ((successCount 1024 1024 jobs : Nat) : Int))).sum :=
  (aggregated_totals 1 (by decide) [[(⟨"a", 0⟩, .content [] .eof)], []]).1

/-! ### Formatting facts for the result line -/

theorem natHexDigitsAux_length_le :
    ∀ (fuel n k : Nat), n < 16 ^ k → 1 ≤ k → (natHexDigitsAux fuel n).length ≤ k := by
  intro fuel
  induction fuel with
  | zero =>
    intro n k _ _
    exact Nat.zero_le k
  | succ fuel ih =>
    intro n k hn hk
    unfold natHexDigitsAux
    by_cases h : n < 16
    · rw [if_pos h]
      exact hk
    · rw [if_neg h]
      have hk2 : 2 ≤ k := by
        rcases Nat.lt_or_ge k 2 with hlt | hge
        · have hk1 : k = 1 := by omega
          subst hk1
          rw [pow_one] at hn
          exact absurd hn h
        · exact hge
      have hpow : 16 ^ (k - 1) * 16 = 16 ^ k := by
        rw [← pow_succ]
        congr 1
        omega
      have hdiv : n / 16 < 16 ^ (k - 1) := by
        rw [Nat.div_lt_iff_lt_mul (by omega)]
        omega
      have hrec := ih (n / 16) (k - 1) hdiv (by omega)
      rw [List.length_append, List.length_singleton]
      omega

theorem natHexDigits_length_le_16 (n : Nat) (h : n < 2 ^ 64) :
    (natHexDigits n).length ≤ 16 := by
  unfold natHexDigits
  refine natHexDigitsAux_length_le (n + 1) n 16 ?_ (by omega)
  have hp : (16 : Nat) ^ 16 = 2 ^ 64 := by norm_num
  omega

theorem hexDigitChar_mem (n : Nat) (h : n < 16) :
    hexDigitChar n ∈ "0123456789abcdef".toList := by
  have hall : ∀ m, m < 16 → hexDigitChar m ∈ "0123456789abcdef".toList := by decide
  exact hall n h

theorem natHexDigitsAux_chars :
    ∀ (fuel n : Nat), ∀ c ∈ natHexDigitsAux fuel n, c ∈ "0123456789abcdef".toList := by
  intro fuel
  induction fuel with
  | zero =>
    intro n c hc
    cases hc
  | succ fuel ih =>
    intro n c hc
    unfold natHexDigitsAux at hc
    by_cases h : n < 16
    · rw [if_pos h] at hc
      rw [List.mem_singleton.mp hc]
      exact hexDigitChar_mem n h
    · rw [if_neg h] at hc
      rcases List.mem_append.mp hc with h1 | h2
      · exact ih (n / 16) c h1
      · rw [List.mem_singleton.mp h2]
        exact hexDigitChar_mem (n % 16) (Nat.mod_lt n (by omega))

/-- C4: on success the checksum string is the base64 encoding of the 4-byte
big-endian packing of the 32-bit checksum — always 8 characters — and the
emitted line is exactly checksum, space, the size as 16 lowercase hex digits,
space, path, newline. -/
theorem success_line_format (j : Job) (fr : FileRead) (bufLen bufferSize : Nat) (crc : String)
    (hok : CRCReader j fr bufLen bufferSize = .ok crc)
    (h0 : 0 ≤ j.size) (h64 : j.size < 2 ^ 64) :
    (∃ checksum : Nat,
        crc = String.mk (base64Encode (uint32BigEndianBytes checksum))
        ∧ (uint32BigEndianBytes checksum).length = 4)
    ∧ crc.length = 8
    ∧ outputLine j crc = crc ++ " " ++ goHex016 j.size ++ " " ++ j.path ++ "\n"
    ∧ (goHex016 j.size).length = 16
    ∧ ∀ c ∈ (goHex016 j.size).toList, c ∈ "0123456789abcdef".toList := by
  have hcrc : ∃ checksum : Nat, crc = crcChecksumString checksum := by
    cases fr with
    | openError msg => exact absurd hok (fun hc => CRCResult.noConfusion hc)
    | content chunks theEnd =>
      cases theEnd with
      | readError msg => exact absurd hok (fun hc => CRCResult.noConfusion hc)
      | eof =>
        rw [show CRCReader j (.content chunks .eof) bufLen bufferSize
            = (if j.size ≠ (chunks.foldl (crcReadStep bufferSize) (0, 0)).2 then
                CRCResult.sizeMismatch
              else if 12 ≤ bufLen then
                CRCResult.ok
                  (crcChecksumString (chunks.foldl (crcReadStep bufferSize) (0, 0)).1)
              else CRCResult.panicked) from rfl] at hok
        by_cases h : j.size ≠ (chunks.foldl (crcReadStep bufferSize) (0, 0)).2
        · rw [if_pos h] at hok
          exact absurd hok (fun hc => CRCResult.noConfusion hc)
        · rw [if_neg h] at hok
          by_cases hb : 12 ≤ bufLen
          · rw [if_pos hb] at hok
            exact ⟨_, ((CRCResult.ok.injEq _ _).mp hok).symm⟩
          · rw [if_neg hb] at hok
            exact absurd hok (fun hc => CRCResult.noConfusion hc)
  obtain ⟨cs, hcs⟩ := hcrc
  have hexlen : (goHex016 j.size).length = 16 := by
    unfold goHex016
    rw [if_pos h0]
    show (padLeftZeros 16 (natHexDigits j.size.toNat)).length = 16
    have hle : (natHexDigits j.size.toNat).length ≤ 16 :=
      natHexDigits_length_le_16 _ (by omega)
    unfold padLeftZeros
    rw [List.length_append, List.length_replicate]
    omega
  have hexchars : ∀ c ∈ (goHex016 j.size).toList, c ∈ "0123456789abcdef".toList := by
    unfold goHex016
    rw [if_pos h0]
    intro c hc
    have hc' : c ∈ padLeftZeros 16 (natHexDigits j.size.toNat) := hc
    unfold padLeftZeros at hc'
    rcases List.mem_append.mp hc' with h1 | h2
    · rw [List.eq_of_mem_replicate h1]
      decide
    · unfold natHexDigits at h2
      exact natHexDigitsAux_chars _ _ c h2
  refine ⟨⟨cs, by rw [hcs]; rfl, rfl⟩, ?_, rfl, hexlen, hexchars⟩
  rw [hcs]
  rfl

/-- Witness for C4: a one-byte file whose checksum encodes to "hrc3ug==". -/
theorem success_line_format_witness :
    CRCReader ⟨"w", 1⟩ (.content [[7]] .eof) 12 4 = .ok "hrc3ug=="
    ∧ (0 : Int) ≤ (1 : Int) ∧ (1 : Int) < 2 ^ 64
    ∧ ((∃ checksum : Nat,
          "hrc3ug==" = String.mk (base64Encode (uint32BigEndianBytes checksum))
          ∧ (uint32BigEndianBytes checksum).length = 4)
        ∧ ("hrc3ug==" : String).length = 8
        ∧ outputLine ⟨"w", 1⟩ "hrc3ug=="
            = "hrc3ug==" ++ " " ++ goHex016 1 ++ " " ++ "w" ++ "\n"
        ∧ (goHex016 1).length = 16
        ∧ ∀ c ∈ (goHex016 1).toList, c ∈ "0123456789abcdef".toList) := by
  have hok : CRCReader ⟨"w", 1⟩ (.content [[7]] .eof) 12 4 = .ok "hrc3ug==" := by decide
  exact ⟨hok, by decide, by decide,
    success_line_format ⟨"w", 1⟩ (.content [[7]] .eof) 12 4 "hrc3ug==" hok
      (by decide) (by decide)⟩

/-! ### The walker -/

theorem walkModel_foldl :
    ∀ (entries : List WalkEntry) (acc : List String × List Job),
      entries.foldl
          (fun acc e =>
            let r := enqueueJob e
            (acc.1 ++ r.1, acc.2 ++ r.2)) acc
        = (acc.1 ++ (entries.map (fun e => (enqueueJob e).1)).flatten,
           acc.2 ++ (entries.map (fun e => (enqueueJob e).2)).flatten) := by
  intro entries
  induction entries with
  | nil =>
    intro acc
    simp
  | cons e rest ih =>
    intro acc
    simp only [List.foldl_cons, List.map_cons, List.flatten_cons]
    rw [ih]
    simp [List.append_assoc]

theorem enqueueJob_jobs_flatten :
    ∀ (entries : List WalkEntry),
      (entries.map (fun e => (enqueueJob e).2)).flatten
        = entries.filterMap (fun e =>
            match e with
            | .found path info =>
              if info.kind = EntryKind.regular then
                some { path := path, size := info.size }
              else none
            | .errored _ _ _ => none) := by
  intro entries
  induction entries with
  | nil => rfl
  | cons e rest ih =>
    simp only [List.map_cons, List.flatten_cons, List.filterMap_cons]
    cases e with
    | errored path info msg =>
      simpa using ih
    | found path info =>
      obtain ⟨k, sz⟩ := info
      cases k with
      | dir => simpa using ih
      | irregular => simpa using ih
      | regular =>
        simpa [enqueueJob] using ih

/-- C6: the walk callback classifies every entry — a metadata error is logged
with a "dir: "/"file: " diagnostic and skipped, a directory logs
"entering dir:" and yields no Work Item, an irregular entry logs "ignoring:"
and yields no Work Item, and exactly the regular files become Work Items
carrying their path and size, queued in walk order. -/
theorem walker_classification (entries : List WalkEntry) :
    (walkModel entries).2
      = entries.filterMap (fun e =>
          match e with
          | .found path info =>
            if info.kind = EntryKind.regular then
              some { path := path, size := info.size }
            else none
          | .errored _ _ _ => none)
    ∧ (∀ (path : String) (info : Option FsFileInfo) (msg : String),
        enqueueJob (.errored path info msg)
          = ([(match info with
               | some i => if i.kind = EntryKind.dir then "dir: " else "file: "
               | none => "file: ") ++ "error: '" ++ path ++ "': " ++ msg ++ "\n"], []))
    ∧ (∀ (path : String) (info : FsFileInfo), info.kind = EntryKind.dir →
        enqueueJob (.found path info) = (["entering dir: " ++ path ++ "\n"], []))
    ∧ (∀ (path : String) (info : FsFileInfo), info.kind = EntryKind.irregular →
        enqueueJob (.found path info) = (["ignoring: " ++ path ++ "\n"], []))
    ∧ (∀ (path : String) (info : FsFileInfo), info.kind = EntryKind.regular →
        enqueueJob (.found path info) = ([], [{ path := path, size := info.size }])) := by
  refine ⟨?_, fun path info msg => rfl, ?_, ?_, ?_⟩
  · unfold walkModel
    rw [walkModel_foldl entries ([], []), enqueueJob_jobs_flatten]
    rfl
  · intro path info h
    obtain ⟨k, sz⟩ := info
    cases k with
    | dir => rfl
    | regular => exact EntryKind.noConfusion h
    | irregular => exact EntryKind.noConfusion h
  · intro path info h
    obtain ⟨k, sz⟩ := info
    cases k with
    | irregular => rfl
    | dir => exact EntryKind.noConfusion h
    | regular => exact EntryKind.noConfusion h
  · intro path info h
    obtain ⟨k, sz⟩ := info
    cases k with
    | regular => rfl
    | dir => exact EntryKind.noConfusion h
    | irregular => exact EntryKind.noConfusion h

/-- Witness for C6: a directory entry logs and queues nothing; a regular
file becomes exactly its Work Item. -/
theorem walker_classification_witness :
    enqueueJob (.found "d" ⟨EntryKind.dir, 0⟩) = (["entering dir: d\n"], [])
    ∧ enqueueJob (.found "f" ⟨EntryKind.regular, 7⟩) = ([], [{ path := "f", size := 7 }]) :=
  ⟨(walker_classification []).2.2.1 "d" ⟨EntryKind.dir, 0⟩ rfl,
   (walker_classification []).2.2.2.2 "f" ⟨EntryKind.regular, 7⟩ rfl⟩

/-! ### The end-to-end "Hello World!" directory -/

/-- Read behaviour of a file whose content is the 12 bytes "Hello World!". -/
def helloWorldContent : FileRead := .content [stringBytes "Hello World!"] .eof

/-- A directory containing exactly one regular file of size 12. -/
def helloWorldEntries : List WalkEntry :=
  [.found "testdir" ⟨EntryKind.dir, 0⟩, .found "hashtest.txt" ⟨EntryKind.regular, 12⟩]

/-- The queue the walk produces, all given to a single worker. -/
def helloWorldAssignment : List (List (Job × FileRead)) :=
  [((walkModel helloWorldEntries).2).map (fun j => (j, helloWorldContent))]

set_option maxRecDepth 2000 in
/-- Counterexample to C3 as stated: the one output line for the 12-byte file
"Hello World!" is not the Self-Test constant line
`C7DdPQ== 000000000000000c hashtest.txt` — the CRC32C of "Hello World!"
encodes to "/mzx3A==", while "C7DdPQ==" is the checksum of the 128-byte
hex-string self-test input. -/
theorem helloWorld_line_not_selfTest_constant :
    ((workerStates 1 helloWorldAssignment).getD 0 initialWorkerState).flushed
      ≠ ["C7DdPQ== 000000000000000c hashtest.txt\n"] := by decide

set_option maxRecDepth 2000 in
/-- C3 amended: the pipeline over the one-file "Hello World!" directory runs
(the self-test passes), emits exactly the line
`/mzx3A== 000000000000000c hashtest.txt`, and aggregates filesProcessed = 1. -/
theorem helloWorld_pipeline_amended :
    runPipeline 1 helloWorldAssignment = .ran (workerStates 1 helloWorldAssignment)
    ∧ ((workerStates 1 helloWorldAssignment).getD 0 initialWorkerState).flushed
        = ["/mzx3A== 000000000000000c hashtest.txt\n"]
    ∧ totalFilesProcessed (workerStates 1 helloWorldAssignment) = 1 := by
  refine ⟨?_, by decide, by decide⟩
  unfold runPipeline runWithSanityOf sanityCheckExitOf
  rw [sanityCheckCalculated_eq, if_neg (fun h => h rfl)]
